import Mathlib

/-!
Verification of the inventory analysis engine (`inve.py`): the value
normalizer (`safe_float_convert`, `safe_int_convert`), schema resolver and
record standardizer (`standardize_inventory_data`), the classification
engine (`calculate_variance`, `determine_status`) and the aggregators
(`process_data`, `get_vendor_summary`).

Numbers are modelled by exact rationals; strings such as "nan" or "inf",
which Python would parse as IEEE special floats, are treated as unparseable
here.  Cells are either a string or a missing value (pandas NaN, whose
Python `str()` form is the literal "nan").
-/

namespace Invent

/-- A cell of the input table: pandas NaN (missing) or a string. -/
inductive Value where
  | null : Value
  | str (s : String) : Value
deriving DecidableEq

/-- Python `str(value)` on a cell: `str(nan)` is the literal "nan". -/
def pyStr : Value → String
  | .null => "nan"
  | .str s => s

/-- Python `value.strip()`: drop leading and trailing whitespace. -/
def trimChars (cs : List Char) : List Char :=
  ((cs.dropWhile Char.isWhitespace).reverse.dropWhile Char.isWhitespace).reverse

/-- Python `s.replace(',', '').replace(' ', '')`: remove every comma and space. -/
def removeCommaSpace (cs : List Char) : List Char :=
  cs.filter (fun c => !(c = ',' || c = ' '))

/-- Python `if s.endswith('%'): s = s[:-1]`: drop one trailing percent sign. -/
def stripPct (cs : List Char) : List Char :=
  match cs.getLast? with
  | some c => if c = '%' then cs.dropLast else cs
  | none => cs

/-- Numeric value of a digit string, most significant first. -/
def digitsToNat (cs : List Char) : Nat :=
  cs.foldl (fun n c => 10 * n + (c.toNat - 48)) 0

/-- Unsigned mantissa of a Python float literal: digits with at most one
dot, at least one digit overall.  Returns the numerator and denominator as
naturals, so that all arithmetic stays kernel-computable. -/
def parseMantissaParts (cs : List Char) : Option (ℕ × ℕ) :=
  let ip := cs.takeWhile Char.isDigit
  let rest := cs.dropWhile Char.isDigit
  match rest with
  | [] => if ip.isEmpty then none else some (digitsToNat ip, 1)
  | c :: frac =>
    if c = '.' ∧ frac.all Char.isDigit ∧ (ip.isEmpty = false ∨ frac.isEmpty = false) then
      some (digitsToNat ip * 10 ^ frac.length + digitsToNat frac, 10 ^ frac.length)
    else none

/-- Strip one optional leading sign; `true` means negative. -/
def splitSign (cs : List Char) : Bool × List Char :=
  match cs with
  | '-' :: rest => (true, rest)
  | '+' :: rest => (false, rest)
  | _ => (false, cs)

/-- Split a float literal at the first exponent marker, if any. -/
def splitExp : List Char → List Char × Option (List Char)
  | [] => ([], none)
  | c :: rest =>
    if c = 'e' ∨ c = 'E' then ([], some rest)
    else
      let r := splitExp rest
      (c :: r.1, r.2)

/-- Signed integer exponent of a float literal. -/
def parseExpInt (cs : List Char) : Option ℤ :=
  match cs with
  | [] => none
  | c :: rest =>
    if c = '-' then
      if rest.isEmpty = false ∧ rest.all Char.isDigit then some (-(digitsToNat rest : ℤ))
      else none
    else if c = '+' then
      if rest.isEmpty = false ∧ rest.all Char.isDigit then some ((digitsToNat rest : ℤ))
      else none
    else
      if cs.all Char.isDigit then some ((digitsToNat cs : ℤ)) else none

/-- Assemble sign, mantissa numerator/denominator and decimal exponent into
one rational, folding the power of ten into the `mkRat` numerator or
denominator so that only natural-number arithmetic is involved. -/
def ratOfParts (neg : Bool) (n d : ℕ) (e : ℤ) : ℚ :=
  let num : ℤ := ((n * 10 ^ e.toNat : ℕ) : ℤ)
  mkRat (if neg then -num else num) (d * 10 ^ (-e).toNat)

/-- Model of Python `float(s)` on an already-cleaned string: `some` the
exact rational on success, `none` when `float` would raise `ValueError`. -/
def pyFloat? (cs : List Char) : Option ℚ :=
  let p := splitExp cs
  let sm := splitSign p.1
  match parseMantissaParts sm.2 with
  | none => none
  | some nd =>
    match p.2 with
    | none => some (ratOfParts sm.1 nd.1 nd.2 0)
    | some ecs =>
      match parseExpInt ecs with
      | some e => some (ratOfParts sm.1 nd.1 nd.2 e)
      | none => none

/-- `InventoryAnalyzer.safe_float_convert`: 0.0 on NaN/None/empty, else
strip the ends, remove commas and spaces, drop one trailing percent sign,
and parse, degrading to 0.0 on failure. -/
def safe_float_convert (v : Value) : ℚ :=
  match v with
  | .null => 0
  | .str s =>
    if s = "" then 0
    else (pyFloat? (stripPct (removeCommaSpace (trimChars s.data)))).getD 0

/-- Truncation toward zero, the behaviour of Python `int()` on a float. -/
def truncToward0 (q : ℚ) : ℤ :=
  if 0 ≤ q then q.floor else -(Rat.floor (-q))

/-- The rational that `safe_int_convert` truncates: the cleaned cell parsed
as a float, 0 on missing/empty/unparseable input (no percent stripping). -/
def intParseRat (v : Value) : ℚ :=
  match v with
  | .null => 0
  | .str s =>
    if s = "" then 0
    else (pyFloat? (removeCommaSpace (trimChars s.data))).getD 0

/-- `InventoryAnalyzer.safe_int_convert`: 0 on NaN/None/empty, else strip
the ends, remove commas and spaces, and take `int(float(s))`, degrading to
0 on failure.  Unlike the float variant, no percent sign is stripped. -/
def safe_int_convert (v : Value) : ℤ :=
  match v with
  | .null => 0
  | .str s =>
    if s = "" then 0
    else
      match pyFloat? (removeCommaSpace (trimChars s.data)) with
      | some q => truncToward0 q
      | none => 0

/-- The canonical fields of the schema resolver. -/
inductive Field where
  | quantity | requiredQuantity | materialId | description | stockValue | vendor
deriving DecidableEq

/-- The fixed priority-ordered alias lists of
`standardize_inventory_data` (`qty_columns` … `vendor_columns`). -/
def aliases : Field → List String
  | .quantity => ["qty", "quantity", "current_qty", "stock_qty"]
  | .requiredQuantity =>
      ["rm", "rm_qty", "required_qty", "norm_qty", "target_qty", "rm_in_qty", "ri_in_qty"]
  | .materialId =>
      ["material", "material_code", "part_number", "item_code", "code", "part_no"]
  | .description => ["description", "item_description", "part_description", "desc"]
  | .stockValue => ["stock_value", "value", "amount", "cost"]
  | .vendor => ["vendor", "vendor_name", "supplier", "supplier_name"]

/-- Column-name normalization `k.lower().replace(' ', '_')` (ASCII lower). -/
def normName (s : String) : String :=
  String.mk (s.data.map (fun c => if c = ' ' then '_' else c.toLower))

/-- The dictionary `available_columns = \x7bk.lower().replace(' ', '_'): k
for k in df.columns\x7d`: on lookup it yields the LAST column with the given
normalized name, because a dict comprehension overwrites earlier entries. -/
def availableLookup (cols : List String) (key : String) : Option String :=
  cols.reverse.find? (fun k => decide (normName k = key))

/-- The per-field loop `for col_name in xs: if col_name in
available_columns: col = available_columns[col_name]; break`. -/
def findCol (als : List String) (cols : List String) : Option String :=
  als.findSome? (fun a => availableLookup cols a)

/-- Spec-side description of the dictionary lookup: the last column of the
list whose normalized name is the given alias, found by a forward scan. -/
def lastMatching (cols : List String) (a : String) : Option String :=
  match cols with
  | [] => none
  | c :: rest =>
    match lastMatching rest a with
    | some r => some r
    | none => if normName c = a then some c else none

/-- Spec-side description of the resolver, written from the amended claim:
take the first alias in list order that matches the normalized name of some
column, and return the last column in table order carrying that normalized
name. -/
def resolveSpec (als cols : List String) : Option String :=
  match als.find? (fun a => cols.any (fun k => decide (normName k = a))) with
  | some a => lastMatching cols a
  | none => none

/-- An input table: a header row of column names and rows of cells aligned
with the header. -/
structure Table where
  header : List String
  rows : List (List Value)

/-- `record.get(col)`: the cell of `row` under the named column, pandas NaN
when the column is absent or the row is short. -/
def cellOf (t : Table) (row : List Value) (col : String) : Value :=
  match t.header.findIdx? (fun h => decide (h = col)) with
  | some i => row.getD i .null
  | none => .null

/-- A standardized inventory record (the dict built per row by
`standardize_inventory_data`). -/
structure InventoryRecord where
  material : String
  description : String
  qty : ℚ
  rm : ℚ
  stock_value : ℤ
  vendor : String
deriving DecidableEq

/-- The record built from one row, using the resolved columns; fields whose
column did not resolve take the defaults of the source (for `material`,
`qty`, `rm` the default is never reached on the success path, since
resolution of those columns is checked before any row is processed; the
chosen defaults make such a row invalid resp. zero). -/
def rowRecord (t : Table) (row : List Value) : InventoryRecord :=
  { material :=
      match findCol (aliases .materialId) t.header with
      | some c => String.mk (trimChars (pyStr (cellOf t row c)).data)
      | none => ""
    description :=
      match findCol (aliases .description) t.header with
      | some c => String.mk (trimChars (pyStr (cellOf t row c)).data)
      | none => ""
    qty :=
      match findCol (aliases .quantity) t.header with
      | some c => safe_float_convert (cellOf t row c)
      | none => 0
    rm :=
      match findCol (aliases .requiredQuantity) t.header with
      | some c => safe_float_convert (cellOf t row c)
      | none => 0
    stock_value :=
      match findCol (aliases .stockValue) t.header with
      | some c => safe_int_convert (cellOf t row c)
      | none => 0
    vendor :=
      match findCol (aliases .vendor) t.header with
      | some c => String.mk (trimChars (pyStr (cellOf t row c)).data)
      | none => "Unknown" }

/-- The retention test `if material and material.lower() != 'nan' and
qty >= 0 and rm >= 0`. -/
def validB (r : InventoryRecord) : Bool :=
  decide (r.material ≠ "") &&
    decide (String.mk (r.material.data.map Char.toLower) ≠ "nan") &&
    decide (0 ≤ r.qty) && decide (0 ≤ r.rm)

/-- The dataset-level failure of standardization: a required column could
not be resolved.  The source signals this by `st.error(...)` followed by
`return []`; the error value records which required field was missing. -/
inductive StdError where
  | missingColumn (f : Field)
deriving DecidableEq

/-- `InventoryAnalyzer.standardize_inventory_data`.  The `df is None or
df.empty` guard returns an empty (successful) result; then the three
required columns are checked in source order (quantity, required quantity,
material), each failure reported via `st.error` (modelled as an error
value); finally each row is turned into a record and appended iff it passes
the retention test. -/
def standardize_inventory_data (t : Table) : Except StdError (List InventoryRecord) :=
  if t.header.isEmpty || t.rows.isEmpty then .ok []
  else
    match findCol (aliases .quantity) t.header with
    | none => .error (.missingColumn .quantity)
    | some _ =>
      match findCol (aliases .requiredQuantity) t.header with
      | none => .error (.missingColumn .requiredQuantity)
      | some _ =>
        match findCol (aliases .materialId) t.header with
        | none => .error (.missingColumn .materialId)
        | some _ =>
          .ok (t.rows.foldl
            (fun acc row =>
              let r := rowRecord t row
              if validB r then acc ++ [r] else acc)
            [])

/-- The three inventory statuses returned by `determine_status` (the
source's strings `'Within Norms'`, `'Excess Inventory'`,
`'Short Inventory'`). -/
inductive Status where
  | withinNorms | excess | short
deriving DecidableEq

/-- `InventoryAnalyzer.calculate_variance`: `(0, 0)` when the required
quantity is zero, else the signed percentage and the signed difference. -/
def calculate_variance (qty rm : ℚ) : ℚ × ℚ :=
  if rm = 0 then (0, 0)
  else ((qty - rm) / rm * 100, qty - rm)

/-- `InventoryAnalyzer.determine_status`: within the tolerance band iff
`|variance| <= tolerance`, else `Excess` iff `variance > tolerance`, else
`Short`. -/
def determine_status (variance_percent tolerance : ℚ) : Status :=
  if |variance_percent| ≤ tolerance then .withinNorms
  else if variance_percent > tolerance then .excess
  else .short

/-- One entry of `processed_data`: the input record extended with variance
and status. -/
structure ProcessedItem where
  material : String
  description : String
  qty : ℚ
  rm : ℚ
  variance_percent : ℚ
  variance_value : ℚ
  status : Status
  stock_value : ℤ
  vendor : String
deriving DecidableEq

/-- The body of the `process_data` loop for one record. -/
def processItem (tol : ℚ) (it : InventoryRecord) : ProcessedItem :=
  { material := it.material
    description := it.description
    qty := it.qty
    rm := it.rm
    variance_percent := (calculate_variance it.qty it.rm).1
    variance_value := (calculate_variance it.qty it.rm).2
    status := determine_status (calculate_variance it.qty it.rm).1 tol
    stock_value := it.stock_value
    vendor := it.vendor }

/-- One bucket of `summary_data`: a part count and a summed stock value. -/
structure StatusCounts where
  count : ℕ
  value : ℤ
deriving DecidableEq

/-- `summary_data`, one bucket per status.  The source initializes the dict
with exactly these three keys, so all three are always present. -/
structure StatusSummary where
  withinNorms : StatusCounts
  excess : StatusCounts
  short : StatusCounts
deriving DecidableEq

/-- The zero-initialized `summary_data` dict. -/
def initSummary : StatusSummary := ⟨⟨0, 0⟩, ⟨0, 0⟩, ⟨0, 0⟩⟩

/-- `summary_data[status]['count'] += 1; summary_data[status]['value'] +=
stock_value`. -/
def updateSummary (s : StatusSummary) (st : Status) (v : ℤ) : StatusSummary :=
  match st with
  | .withinNorms => { s with withinNorms := ⟨s.withinNorms.count + 1, s.withinNorms.value + v⟩ }
  | .excess => { s with excess := ⟨s.excess.count + 1, s.excess.value + v⟩ }
  | .short => { s with short := ⟨s.short.count + 1, s.short.value + v⟩ }

/-- `InventoryAnalyzer.process_data`: one pass over the records, appending
the processed item and updating the status summary. -/
def process_data (items : List InventoryRecord) (tol : ℚ) :
    List ProcessedItem × StatusSummary :=
  items.foldl
    (fun acc it =>
      let p := processItem tol it
      (acc.1 ++ [p], updateSummary acc.2 p.status p.stock_value))
    ([], initSummary)

/-- The summary part of the `process_data` loop in isolation: fold the
status updates of the given processed items over a starting summary. -/
def sumFold (ps : List ProcessedItem) (s : StatusSummary) : StatusSummary :=
  ps.foldl (fun s p => updateSummary s p.status p.stock_value) s

/-- Spec-side count: how many processed items carry the given status. -/
def countStatus (ps : List ProcessedItem) (st : Status) : ℕ :=
  (ps.filter (fun p => decide (p.status = st))).length

/-- Spec-side value: summed stock value of the items with the given status. -/
def valueStatus (ps : List ProcessedItem) (st : Status) : ℤ :=
  ((ps.filter (fun p => decide (p.status = st))).map (fun p => p.stock_value)).sum

/-- One vendor's bucket in `vendor_summary`. -/
structure VendorStats where
  total_parts : ℕ
  total_qty : ℚ
  total_rm : ℚ
  total_value : ℤ
  short_parts : ℕ
  excess_parts : ℕ
  normal_parts : ℕ
deriving DecidableEq

/-- The zero bucket a vendor gets on first sight. -/
def initVendorStats : VendorStats := ⟨0, 0, 0, 0, 0, 0, 0⟩

/-- The per-item updates of `get_vendor_summary`: totals always, and one of
the three status counters according to the `if/elif/else` on the status. -/
def bumpStats (s : VendorStats) (p : ProcessedItem) : VendorStats :=
  { total_parts := s.total_parts + 1
    total_qty := s.total_qty + p.qty
    total_rm := s.total_rm + p.rm
    total_value := s.total_value + p.stock_value
    short_parts := match p.status with | .short => s.short_parts + 1 | _ => s.short_parts
    excess_parts := match p.status with | .excess => s.excess_parts + 1 | _ => s.excess_parts
    normal_parts :=
      match p.status with
      | .short => s.normal_parts
      | .excess => s.normal_parts
      | .withinNorms => s.normal_parts + 1 }

/-- `InventoryAnalyzer.get_vendor_summary`: the dict is modelled as a map
from vendor names to optional buckets; each item inserts the zero bucket
for an unseen vendor and then increments that vendor's bucket. -/
def get_vendor_summary (ps : List ProcessedItem) : String → Option VendorStats :=
  ps.foldl
    (fun m p => fun v =>
      if v = p.vendor then some (bumpStats ((m p.vendor).getD initVendorStats) p) else m v)
    (fun _ => none)

/-- The rational coerced from a row's stock-value cell (0 when the
stock-value column did not resolve): the quantity whose toward-zero
truncation becomes the record's `stock_value`. -/
def stockRat (t : Table) (row : List Value) : ℚ :=
  match findCol (aliases .stockValue) t.header with
  | some c => intParseRat (cellOf t row c)
  | none => 0

/-- The records of one vendor, in order. -/
def vendorFilter (ps : List ProcessedItem) (v : String) : List ProcessedItem :=
  ps.filter (fun p => decide (p.vendor = v))

/-- Spec-side vendor aggregation: present iff the vendor has a record, and
then the componentwise sums and counts over exactly that vendor's records. -/
def vendorAggSpec (ps : List ProcessedItem) (v : String) : Option VendorStats :=
  if (vendorFilter ps v).isEmpty then none
  else
    some
      { total_parts := (vendorFilter ps v).length
        total_qty := ((vendorFilter ps v).map (fun p => p.qty)).sum
        total_rm := ((vendorFilter ps v).map (fun p => p.rm)).sum
        total_value := ((vendorFilter ps v).map (fun p => p.stock_value)).sum
        short_parts := countStatus (vendorFilter ps v) .short
        excess_parts := countStatus (vendorFilter ps v) .excess
        normal_parts := countStatus (vendorFilter ps v) .withinNorms }

end Invent

namespace Invent

/-! ## Classification engine -/

/-- Characterization of `determine_status` under a nonnegative tolerance:
the three outcomes are equivalent to the three band conditions. -/
theorem determine_status_spec (v tol : ℚ) (htol : 0 ≤ tol) :
    (determine_status v tol = .withinNorms ↔ |v| ≤ tol) ∧
    (determine_status v tol = .excess ↔ tol < v) ∧
    (determine_status v tol = .short ↔ v < -tol) := by
  have hle := le_abs_self v
  have hge := neg_abs_le v
  unfold determine_status
  by_cases h1 : |v| ≤ tol
  · simp only [if_pos h1]
    refine ⟨by simp [h1], ?_, ?_⟩
    · simp only [iff_false, reduceCtorEq, false_iff]
      intro h; linarith
    · simp only [reduceCtorEq, false_iff]
      intro h; linarith
  · by_cases h2 : tol < v
    · simp only [if_neg h1, if_pos h2]
      refine ⟨?_, by simp [h2], ?_⟩
      · simp only [reduceCtorEq, false_iff]; exact h1
      · simp only [reduceCtorEq, false_iff]
        intro h; linarith
    · simp only [if_neg h1, if_neg h2]
      refine ⟨?_, ?_, ?_⟩
      · simp only [reduceCtorEq, false_iff]; exact h1
      · simp only [reduceCtorEq, false_iff]; exact h2
      · simp only [true_iff]
        rcases lt_abs.mp (lt_of_not_le h1) with h | h
        · exact absurd h h2
        · linarith

/-- Claim C1: for a record with positive required quantity and a
nonnegative tolerance, the status is WithinNorms iff the absolute variance
percentage is within the tolerance, Excess iff it exceeds it, Short iff it
is below its negation; in particular both boundary values are WithinNorms. -/
theorem C1_status_thresholds (qty rm tol : ℚ) (_hrm : 0 < rm) (htol : 0 ≤ tol) :
    ((determine_status (calculate_variance qty rm).1 tol = .withinNorms ↔
        |(calculate_variance qty rm).1| ≤ tol) ∧
      (determine_status (calculate_variance qty rm).1 tol = .excess ↔
        (calculate_variance qty rm).1 > tol) ∧
      (determine_status (calculate_variance qty rm).1 tol = .short ↔
        (calculate_variance qty rm).1 < -tol)) ∧
    ((calculate_variance qty rm).1 = tol →
      determine_status (calculate_variance qty rm).1 tol = .withinNorms) ∧
    ((calculate_variance qty rm).1 = -tol →
      determine_status (calculate_variance qty rm).1 tol = .withinNorms) := by
  obtain ⟨hw, he, hs⟩ := determine_status_spec (calculate_variance qty rm).1 tol htol
  refine ⟨⟨hw, he, hs⟩, ?_, ?_⟩
  · intro h
    exact hw.mpr (by rw [h, abs_of_nonneg htol])
  · intro h
    refine hw.mpr ?_
    rw [h, abs_neg, abs_of_nonneg htol]

/-- Witness for C1 at `qty = 13`, `rm = 10`, `tol = 30`: the variance is
exactly the tolerance and the status is WithinNorms. -/
theorem C1_status_thresholds_witness :
    (0 : ℚ) < 10 ∧ (0 : ℚ) ≤ 30 ∧
    (((determine_status (calculate_variance 13 10).1 30 = .withinNorms ↔
        |(calculate_variance 13 10).1| ≤ 30) ∧
      (determine_status (calculate_variance 13 10).1 30 = .excess ↔
        (calculate_variance 13 10).1 > 30) ∧
      (determine_status (calculate_variance 13 10).1 30 = .short ↔
        (calculate_variance 13 10).1 < -30)) ∧
    ((calculate_variance 13 10).1 = 30 →
      determine_status (calculate_variance 13 10).1 30 = .withinNorms) ∧
    ((calculate_variance 13 10).1 = -30 →
      determine_status (calculate_variance 13 10).1 30 = .withinNorms)) :=
  ⟨by norm_num, by norm_num, C1_status_thresholds 13 10 30 (by norm_num) (by norm_num)⟩

/-- Claim C2: with required quantity zero and a nonnegative tolerance, the
variance pair is `(0, 0)` and the status is WithinNorms, whatever the
quantity. -/
theorem C2_zero_required_guard (qty tol : ℚ) (htol : 0 ≤ tol) :
    calculate_variance qty 0 = (0, 0) ∧
    determine_status (calculate_variance qty 0).1 tol = .withinNorms := by
  have hv : calculate_variance qty 0 = (0, 0) := by simp [calculate_variance]
  refine ⟨hv, ?_⟩
  rw [hv]
  simp [determine_status, htol]

/-- Witness for C2 at `qty = 1000`, `tol = 30`. -/
theorem C2_zero_required_guard_witness :
    (0 : ℚ) ≤ 30 ∧
    (calculate_variance 1000 0 = (0, 0) ∧
      determine_status (calculate_variance 1000 0).1 30 = .withinNorms) :=
  ⟨by norm_num, C2_zero_required_guard 1000 30 (by norm_num)⟩

/-! ## Value normalizer -/

/-- Claim C6: `safe_float_convert` is a total function; missing values, the
empty string and unparseable text yield 0; commas, spaces and one trailing
percent sign are stripped before parsing, as witnessed on the claim's
inputs. -/
theorem C6_to_number_examples :
    safe_float_convert .null = 0 ∧
    safe_float_convert (.str ("")) = 0 ∧
    safe_float_convert (.str ("abc")) = 0 ∧
    safe_float_convert (.str ("1,234.50")) = 1234.5 ∧
    safe_float_convert (.str ("45%")) = 45 ∧
    safe_float_convert (.str (" 1,2 34.50 ")) = 1234.5 := by
  have h1234 : (mkRat 123450 100 : ℚ) = 1234.5 := by
    rw [Rat.mkRat_eq_div]; norm_num
  refine ⟨by decide, by decide, by decide, ?_, by decide, ?_⟩
  · rw [show safe_float_convert (.str ("1,234.50")) = mkRat 123450 100 from by decide]
    exact h1234
  · rw [show safe_float_convert (.str (" 1,2 34.50 ")) = mkRat 123450 100 from by decide]
    exact h1234

/-! ## Record standardizer -/

/-- No column resolves against an empty header. -/
theorem findCol_nil (als : List String) : findCol als [] = none := by
  induction als with
  | nil => rfl
  | cons a as ih => exact ih

/-- The append-if-valid loop of `standardize_inventory_data` equals
filtering the rowwise records. -/
theorem std_foldl (t : Table) (rows : List (List Value)) (acc : List InventoryRecord) :
    rows.foldl
        (fun acc row =>
          let r := rowRecord t row
          if validB r then acc ++ [r] else acc)
        acc
      = acc ++ (rows.map (rowRecord t)).filter validB := by
  induction rows generalizing acc with
  | nil => simp
  | cons row rest ih =>
    simp only [List.foldl_cons, List.map_cons, List.filter_cons]
    cases h : validB (rowRecord t row)
    · simp only [h, Bool.false_eq_true, if_false, ih]
    · simp only [h, if_true, ih, List.append_assoc, List.singleton_append]

/-- A record of an empty-header table is never valid (its material id is
empty). -/
theorem validB_empty_header (t : Table) (hh : t.header = []) (row : List Value) :
    validB (rowRecord t row) = false := by
  have hm : (rowRecord t row).material = "" := by
    simp [rowRecord, hh, findCol_nil]
  simp [validB, hm]

/-- Characterization of a successful standardization: the result is the
rowwise records filtered by the retention test, in input order. -/
theorem std_ok_char (t : Table) (recs : List InventoryRecord)
    (h : standardize_inventory_data t = .ok recs) :
    recs = (t.rows.map (rowRecord t)).filter validB := by
  unfold standardize_inventory_data at h
  by_cases hempty : (t.header.isEmpty || t.rows.isEmpty) = true
  · rw [if_pos hempty] at h
    have hrecs : recs = [] := by
      injection h with h2
      exact h2.symm
    subst hrecs
    rcases Bool.or_eq_true_iff.mp hempty with hh | hr
    · have hh : t.header = [] := by
        cases hhd : t.header with
        | nil => rfl
        | cons a l => rw [hhd] at hh; simp [List.isEmpty] at hh
      symm
      rw [List.filter_eq_nil_iff]
      intro r hrm
      obtain ⟨row, _, rfl⟩ := List.mem_map.mp hrm
      simp [validB_empty_header t hh row]
    · have hr : t.rows = [] := by
        cases hrw : t.rows with
        | nil => rfl
        | cons a l => rw [hrw] at hr; simp [List.isEmpty] at hr
      simp [hr]
  · rw [if_neg hempty] at h
    cases hq : findCol (aliases .quantity) t.header with
    | none => rw [hq] at h; simp at h
    | some cq =>
      rw [hq] at h
      cases hrm : findCol (aliases .requiredQuantity) t.header with
      | none => rw [hrm] at h; simp at h
      | some crm =>
        rw [hrm] at h
        cases hmat : findCol (aliases .materialId) t.header with
        | none => rw [hmat] at h; simp at h
        | some cmat =>
          rw [hmat] at h
          injection h with h2
          rw [← h2, std_foldl]
          simp

/-- Claim C4: a successful standardization only retains records with a
non-empty material id whose lowercase form is not "nan" and with
nonnegative quantity and required quantity; invalid rows are dropped
without an error and the output is the in-order filtering of the rowwise
records. -/
theorem C4_retained_invariant (t : Table) (recs : List InventoryRecord)
    (h : standardize_inventory_data t = .ok recs) :
    (∀ r ∈ recs,
      r.material ≠ "" ∧ String.mk (r.material.data.map Char.toLower) ≠ "nan" ∧
        0 ≤ r.qty ∧ 0 ≤ r.rm) ∧
    recs = (t.rows.map (rowRecord t)).filter validB := by
  have hchar := std_ok_char t recs h
  refine ⟨?_, hchar⟩
  intro r hr
  rw [hchar] at hr
  have hv : validB r = true := (List.mem_filter.mp hr).2
  unfold validB at hv
  simp only [Bool.and_eq_true, decide_eq_true_eq] at hv
  exact ⟨hv.1.1.1, hv.1.1.2, hv.1.2, hv.2⟩

/-- Witness for C4 on a table whose first row has an empty material id: the
surviving output record is valid and the output is the filtered rowwise
sequence. -/
theorem C4_retained_invariant_witness :
    (∀ r ∈ [({ material := "M2", description := "", qty := mkRat 25 10, rm := 2,
               stock_value := 0, vendor := "Unknown" } : InventoryRecord)],
      r.material ≠ "" ∧ String.mk (r.material.data.map Char.toLower) ≠ "nan" ∧
        0 ≤ r.qty ∧ 0 ≤ r.rm) ∧
    [({ material := "M2", description := "", qty := mkRat 25 10, rm := 2,
        stock_value := 0, vendor := "Unknown" } : InventoryRecord)] =
      ((Table.mk ["Material", "QTY", "RM"]
          [[.str (""), .str ("1"), .str ("1")], [.str ("M2"), .str ("2.5"), .str ("2")]]).rows.map
        (rowRecord (Table.mk ["Material", "QTY", "RM"]
          [[.str (""), .str ("1"), .str ("1")], [.str ("M2"), .str ("2.5"), .str ("2")]]))).filter
        validB :=
  C4_retained_invariant
    (Table.mk ["Material", "QTY", "RM"]
      [[.str (""), .str ("1"), .str ("1")], [.str ("M2"), .str ("2.5"), .str ("2")]])
    [{ material := "M2", description := "", qty := mkRat 25 10, rm := 2,
       stock_value := 0, vendor := "Unknown" }]
    (by rfl)

/-- Counterexample to claim C3 as stated: a table with rows absent (pandas
`df.empty`) and no resolvable quantity column is returned as an empty
success, not as a missing-column error. -/
theorem C3_counterexample :
    findCol (aliases .quantity) ["foo"] = none ∧
    standardize_inventory_data (Table.mk ["foo"] []) = .ok [] :=
  ⟨by decide, by rfl⟩

/-- Claim C3 (amended: restricted to tables with at least one column and at
least one row, which are not caught by the `df.empty` guard): if any of the
three required fields fails to resolve, standardization reports a
missing-column error for a field that indeed does not resolve, whereas the
optional fields description, stock value and vendor being unresolvable is
never an error and yields the per-row defaults. -/
theorem C3_missing_required_amended (t : Table) :
    (t.header ≠ [] → t.rows ≠ [] →
      (findCol (aliases .quantity) t.header = none ∨
        findCol (aliases .requiredQuantity) t.header = none ∨
        findCol (aliases .materialId) t.header = none) →
      ∃ f : Field, standardize_inventory_data t = .error (.missingColumn f) ∧
        findCol (aliases f) t.header = none) ∧
    (findCol (aliases .description) t.header = none →
      findCol (aliases .stockValue) t.header = none →
      findCol (aliases .vendor) t.header = none →
      ∀ recs, standardize_inventory_data t = .ok recs →
        ∀ r ∈ recs, r.description = "" ∧ r.stock_value = 0 ∧ r.vendor = "Unknown") := by
  constructor
  · intro hh hr hmiss
    have hh2 : t.header.isEmpty = false := by
      cases hhd : t.header with
      | nil => exact absurd hhd hh
      | cons a l => simp [List.isEmpty]
    have hr2 : t.rows.isEmpty = false := by
      cases hrw : t.rows with
      | nil => exact absurd hrw hr
      | cons a l => simp [List.isEmpty]
    unfold standardize_inventory_data
    rw [if_neg (by simp [hh2, hr2])]
    cases hq : findCol (aliases .quantity) t.header with
    | none => exact ⟨.quantity, rfl, hq⟩
    | some cq =>
      cases hrm : findCol (aliases .requiredQuantity) t.header with
      | none => exact ⟨.requiredQuantity, rfl, hrm⟩
      | some crm =>
        cases hmat : findCol (aliases .materialId) t.header with
        | none => exact ⟨.materialId, rfl, hmat⟩
        | some cmat =>
          rcases hmiss with h | h | h
          · rw [hq] at h; cases h
          · rw [hrm] at h; cases h
          · rw [hmat] at h; cases h
  · intro hd hv hven recs hok r hr
    rw [std_ok_char t recs hok] at hr
    obtain ⟨row, _, rfl⟩ := List.mem_map.mp (List.mem_filter.mp hr).1
    refine ⟨?_, ?_, ?_⟩
    · simp [rowRecord, hd]
    · simp [rowRecord, hv]
    · simp [rowRecord, hven]

/-- Witness for C3: a table missing the quantity column errors out naming
it, and a table without description/value/vendor columns yields the
defaults on its surviving record. -/
theorem C3_missing_required_witness :
    (∃ f : Field,
      standardize_inventory_data (Table.mk ["Material", "RM"] [[.str ("M1"), .str ("1")]]) =
          .error (.missingColumn f) ∧
        findCol (aliases f) ["Material", "RM"] = none) ∧
    (∀ r ∈ [({ material := "M1", description := "", qty := 1, rm := 1,
               stock_value := 0, vendor := "Unknown" } : InventoryRecord)],
      r.description = "" ∧ r.stock_value = 0 ∧ r.vendor = "Unknown") :=
  ⟨(C3_missing_required_amended (Table.mk ["Material", "RM"] [[.str ("M1"), .str ("1")]])).1
      (by decide) (by decide) (Or.inl (by decide)),
    (C3_missing_required_amended
        (Table.mk ["Material", "QTY", "RM"] [[.str ("M1"), .str ("1"), .str ("1")]])).2
      (by decide) (by decide) (by decide)
      [{ material := "M1", description := "", qty := 1, rm := 1,
         stock_value := 0, vendor := "Unknown" }]
      (by rfl)⟩

/-- Counterexample to claim C9 as stated: a resolving table whose
stock-value cell is "-5" standardizes successfully to a record with a
negative stock value. -/
theorem C9_counterexample :
    standardize_inventory_data
        (Table.mk ["Material", "QTY", "RM", "Value"]
          [[.str ("M1"), .str ("1"), .str ("1"), .str ("-5")]]) =
      .ok [{ material := "M1", description := "", qty := 1, rm := 1, stock_value := -5,
             vendor := "Unknown" }] ∧
    ((-5 : ℤ) < 0) :=
  ⟨by rfl, by decide⟩

/-- `safe_int_convert` is the toward-zero truncation of the coerced cell. -/
theorem safe_int_eq_trunc (v : Value) : safe_int_convert v = truncToward0 (intParseRat v) := by
  cases v with
  | null => decide
  | str s =>
    by_cases hs : s = ""
    · simp only [safe_int_convert, intParseRat, if_pos hs]
      decide
    · simp only [safe_int_convert, intParseRat, if_neg hs]
      cases hp : pyFloat? (removeCommaSpace (trimChars s.data)) with
      | none => decide
      | some q => rfl

/-- Batteries' `Rat.floor` agrees with the floor of the order structure. -/
theorem ratFloor_eq_intFloor (q : ℚ) : Rat.floor q = ⌊q⌋ :=
  (Rat.floor_def' q).trans Rat.floor_def.symm

/-- Truncation toward zero preserves nonnegativity. -/
theorem trunc_nonneg (q : ℚ) (h : 0 ≤ q) : 0 ≤ truncToward0 q := by
  unfold truncToward0
  rw [if_pos h, ratFloor_eq_intFloor]
  exact Int.floor_nonneg.mpr h

/-- Claim C9 (amended: the stock value is an integer obtained by toward-zero
truncation of the coerced cell and it can be negative for negative cells;
nonnegativity does hold whenever every stock-value cell of the table
coerces to a nonnegative number, in particular when cells are absent or
unparseable). -/
theorem C9_stock_value_amended (t : Table) (recs : List InventoryRecord)
    (hok : standardize_inventory_data t = .ok recs)
    (hcells : ∀ row ∈ t.rows, 0 ≤ stockRat t row) :
    ∀ r ∈ recs, 0 ≤ r.stock_value := by
  intro r hr
  rw [std_ok_char t recs hok] at hr
  obtain ⟨row, hrow, rfl⟩ := List.mem_map.mp (List.mem_filter.mp hr).1
  have h := hcells row hrow
  unfold stockRat at h
  show 0 ≤ (rowRecord t row).stock_value
  unfold rowRecord
  cases hc : findCol (aliases .stockValue) t.header with
  | none => simp
  | some c =>
    rw [hc] at h
    simp only [hc]
    rw [safe_int_eq_trunc]
    exact trunc_nonneg _ h

/-- Witness for C9 on a table with stock-value cell "10". -/
theorem C9_stock_value_witness :
    0 ≤ ({ material := "M1", description := "", qty := 1, rm := 1, stock_value := 10,
           vendor := "Unknown" } : InventoryRecord).stock_value :=
  C9_stock_value_amended
    (Table.mk ["Material", "QTY", "RM", "Value"]
      [[.str ("M1"), .str ("1"), .str ("1"), .str ("10")]])
    [{ material := "M1", description := "", qty := 1, rm := 1, stock_value := 10,
       vendor := "Unknown" }]
    (by rfl) (by decide)
    { material := "M1", description := "", qty := 1, rm := 1, stock_value := 10,
      vendor := "Unknown" }
    (List.mem_singleton.mpr rfl)

/-! ## Status aggregation -/

/-- What the summary fold adds to each bucket: the per-status counts and
stock-value sums of the folded items. -/
theorem sumFold_spec (ps : List ProcessedItem) : ∀ s : StatusSummary,
    (sumFold ps s).withinNorms.count = s.withinNorms.count + countStatus ps .withinNorms ∧
    (sumFold ps s).excess.count = s.excess.count + countStatus ps .excess ∧
    (sumFold ps s).short.count = s.short.count + countStatus ps .short ∧
    (sumFold ps s).withinNorms.value = s.withinNorms.value + valueStatus ps .withinNorms ∧
    (sumFold ps s).excess.value = s.excess.value + valueStatus ps .excess ∧
    (sumFold ps s).short.value = s.short.value + valueStatus ps .short := by
  induction ps with
  | nil => intro s; simp [sumFold, countStatus, valueStatus]
  | cons p rest ih =>
    intro s
    obtain ⟨h1, h2, h3, h4, h5, h6⟩ := ih (updateSummary s p.status p.stock_value)
    have hstep : sumFold (p :: rest) s = sumFold rest (updateSummary s p.status p.stock_value) :=
      rfl
    rw [hstep]
    refine ⟨?_, ?_, ?_, ?_, ?_, ?_⟩ <;>
      first
      | (rw [h1]; cases hst : p.status <;>
          simp [updateSummary, hst, countStatus, List.filter_cons] <;> omega)
      | (rw [h2]; cases hst : p.status <;>
          simp [updateSummary, hst, countStatus, List.filter_cons] <;> omega)
      | (rw [h3]; cases hst : p.status <;>
          simp [updateSummary, hst, countStatus, List.filter_cons] <;> omega)
      | (rw [h4]; cases hst : p.status <;>
          simp [updateSummary, hst, valueStatus, List.filter_cons] <;> omega)
      | (rw [h5]; cases hst : p.status <;>
          simp [updateSummary, hst, valueStatus, List.filter_cons] <;> omega)
      | (rw [h6]; cases hst : p.status <;>
          simp [updateSummary, hst, valueStatus, List.filter_cons] <;> omega)

/-- The two components of the `process_data` fold from a generic
accumulator: the processed items are appended in order and the summary is
the summary fold. -/
theorem process_data_general (tol : ℚ) (items : List InventoryRecord) :
    ∀ acc : List ProcessedItem × StatusSummary,
      (items.foldl
          (fun acc it =>
            let p := processItem tol it
            (acc.1 ++ [p], updateSummary acc.2 p.status p.stock_value))
          acc)
        = (acc.1 ++ items.map (processItem tol),
            sumFold (items.map (processItem tol)) acc.2) := by
  induction items with
  | nil => intro acc; simp [sumFold]
  | cons it rest ih =>
    intro acc
    rw [List.foldl_cons, ih]
    simp [sumFold, List.append_assoc]

/-- The processed list of `process_data` is the in-order map of the
per-item computation. -/
theorem process_data_fst (items : List InventoryRecord) (tol : ℚ) :
    (process_data items tol).1 = items.map (processItem tol) := by
  unfold process_data
  rw [process_data_general]
  simp

/-- The summary of `process_data` is the summary fold from zero. -/
theorem process_data_snd (items : List InventoryRecord) (tol : ℚ) :
    (process_data items tol).2 = sumFold (items.map (processItem tol)) initSummary := by
  unfold process_data
  rw [process_data_general]

/-- The three status counts partition any list of processed items. -/
theorem countStatus_partition (ps : List ProcessedItem) :
    countStatus ps .withinNorms + countStatus ps .excess + countStatus ps .short = ps.length := by
  induction ps with
  | nil => simp [countStatus]
  | cons p rest ih =>
    cases hst : p.status <;>
      simp only [countStatus, List.filter_cons, hst, List.length_cons] at ih ⊢ <;>
      simp <;> omega

/-- Claim C5: processing yields one processed item per input record; the
summary (a structure with exactly the three status buckets, zero-initialized
as in the source dict) counts each status's items exactly, the three counts
sum to the number of processed records, and each bucket's value is the
stock-value sum over that status's records. -/
theorem C5_status_summary (items : List InventoryRecord) (tol : ℚ) :
    (process_data items tol).1.length = items.length ∧
    (process_data items tol).2.withinNorms.count
        = countStatus (process_data items tol).1 .withinNorms ∧
    (process_data items tol).2.excess.count = countStatus (process_data items tol).1 .excess ∧
    (process_data items tol).2.short.count = countStatus (process_data items tol).1 .short ∧
    (process_data items tol).2.withinNorms.count + (process_data items tol).2.excess.count +
        (process_data items tol).2.short.count = items.length ∧
    (process_data items tol).2.withinNorms.value
        = valueStatus (process_data items tol).1 .withinNorms ∧
    (process_data items tol).2.excess.value = valueStatus (process_data items tol).1 .excess ∧
    (process_data items tol).2.short.value = valueStatus (process_data items tol).1 .short := by
  obtain ⟨h1, h2, h3, h4, h5, h6⟩ := sumFold_spec (items.map (processItem tol)) initSummary
  have hfst := process_data_fst items tol
  have hsnd := process_data_snd items tol
  have hlen : (items.map (processItem tol)).length = items.length := List.length_map items _
  have hpart := (countStatus_partition (items.map (processItem tol))).trans hlen
  refine ⟨?_, ?_, ?_, ?_, ?_, ?_, ?_, ?_⟩
  · rw [hfst, hlen]
  · rw [hsnd, hfst, h1]; simp [initSummary]
  · rw [hsnd, hfst, h2]; simp [initSummary]
  · rw [hsnd, hfst, h3]; simp [initSummary]
  · rw [hsnd, h1, h2, h3]; simp only [initSummary]; omega
  · rw [hsnd, hfst, h4]; simp [initSummary]
  · rw [hsnd, hfst, h5]; simp [initSummary]
  · rw [hsnd, hfst, h6]; simp [initSummary]

/-! ## Schema resolver -/

/-- `findSome?` is `find?` on definedness followed by the function. -/
theorem findSome_eq_find_bind {α β : Type} (f : α → Option β) (l : List α) :
    l.findSome? f = (l.find? (fun a => (f a).isSome)).bind f := by
  induction l with
  | nil => rfl
  | cons a l ih =>
    cases hf : f a with
    | some b => simp [List.findSome?_cons, List.find?_cons, hf]
    | none => simp [List.findSome?_cons, List.find?_cons, hf, ih]

/-- `find?` over an append scans the left part first. -/
theorem find_append {α : Type} (p : α → Bool) (l1 l2 : List α) :
    (l1 ++ l2).find? p =
      match l1.find? p with
      | some x => some x
      | none => l2.find? p := by
  induction l1 with
  | nil => simp
  | cons a l ih =>
    cases hp : p a <;> simp [List.find?_cons, hp, ih]

/-- The reverse scan of the dictionary lookup finds the last matching
column of the forward scan. -/
theorem availableLookup_eq_lastMatching (cols : List String) (a : String) :
    availableLookup cols a = lastMatching cols a := by
  induction cols with
  | nil => rfl
  | cons c rest ih =>
    unfold availableLookup at ih ⊢
    unfold lastMatching
    rw [List.reverse_cons, find_append, ih]
    cases lastMatching rest a with
    | some r => rfl
    | none => by_cases hn : normName c = a <;> simp [List.find?_cons, hn]

/-- The dictionary has an entry for an alias iff some column normalizes to
it. -/
theorem availableLookup_isSome (cols : List String) (a : String) :
    (availableLookup cols a).isSome = cols.any (fun k => decide (normName k = a)) := by
  rw [availableLookup_eq_lastMatching]
  induction cols with
  | nil => rfl
  | cons c rest ih =>
    unfold lastMatching
    cases hl : lastMatching rest a with
    | some r => rw [hl] at ih; simp [List.any_cons, ← ih]
    | none =>
      rw [hl] at ih
      by_cases hn : normName c = a <;> simp [List.any_cons, hn, ← ih]

/-- Counterexample to claim C7 as stated: with columns
`["Quantity", "Qty"]` the first column of the table whose normalized name
is a quantity alias is "Quantity", but the resolver picks "Qty", because it
walks the alias list (where "qty" precedes "quantity"), not the columns. -/
theorem C7_counterexample :
    findCol (aliases .quantity) ["Quantity", "Qty"] = some ("Qty") ∧
    (["Quantity", "Qty"].find? (fun k => decide (normName k ∈ aliases .quantity)))
      = some ("Quantity") ∧
    findCol (aliases .quantity) ["Quantity", "Qty"] ≠
      ["Quantity", "Qty"].find? (fun k => decide (normName k ∈ aliases .quantity)) := by
  refine ⟨by decide, by decide, by decide⟩

/-- Claim C7 (amended: the resolver walks the alias list in priority order
and, at the first alias some column normalizes to, returns the dictionary
entry for that alias, which is the LAST column in table order with that
normalized name, since the dict comprehension lets later columns overwrite
earlier ones; in particular `["Qty", "Quantity"]` resolves quantity to
"Qty"). -/
theorem C7_resolver_amended :
    (∀ als cols : List String, findCol als cols = resolveSpec als cols) ∧
    findCol (aliases .quantity) ["Qty", "Quantity"] = some ("Qty") := by
  constructor
  · intro als cols
    unfold findCol resolveSpec
    rw [findSome_eq_find_bind]
    have hpred :
        (fun a => (availableLookup cols a).isSome) =
          (fun a => cols.any (fun k => decide (normName k = a))) :=
      funext (fun a => availableLookup_isSome cols a)
    rw [hpred]
    cases hf : als.find? (fun a => cols.any (fun k => decide (normName k = a))) with
    | none => rfl
    | some a => simp [availableLookup_eq_lastMatching]
  · decide

/-! ## Vendor aggregation -/

/-- The vendor fold from a generic dictionary, read at one vendor: nothing
changes without records for that vendor, else its bucket is folded over
exactly that vendor's records. -/
theorem gvs_general (ps : List ProcessedItem) :
    ∀ (m : String → Option VendorStats) (v : String),
      (ps.foldl
          (fun m p => fun w =>
            if w = p.vendor then some (bumpStats ((m p.vendor).getD initVendorStats) p)
            else m w)
          m) v
        = if (vendorFilter ps v).isEmpty then m v
          else some ((vendorFilter ps v).foldl bumpStats ((m v).getD initVendorStats)) := by
  induction ps with
  | nil => intro m v; simp [vendorFilter]
  | cons p rest ih =>
    intro m v
    rw [List.foldl_cons, ih]
    by_cases hv : v = p.vendor
    · have hfil : vendorFilter (p :: rest) v = p :: vendorFilter rest v := by
        simp [vendorFilter, List.filter_cons, hv.symm]
      have hmv :
          (if v = p.vendor then some (bumpStats ((m p.vendor).getD initVendorStats) p)
            else m v)
            = some (bumpStats ((m v).getD initVendorStats) p) := by
        simp [hv]
      rw [hfil]
      simp only [List.isEmpty_cons, Bool.false_eq_true, if_false, List.foldl_cons]
      rw [hmv]
      cases hemp : (vendorFilter rest v).isEmpty
      · simp only [Bool.false_eq_true, if_false, Option.getD_some]
      · have hnil : vendorFilter rest v = [] := by
          cases hfr : vendorFilter rest v with
          | nil => rfl
          | cons a l => rw [hfr] at hemp; simp [List.isEmpty] at hemp
        simp [hnil]
    · have hfil : vendorFilter (p :: rest) v = vendorFilter rest v := by
        have hne : p.vendor ≠ v := fun h => hv h.symm
        simp [vendorFilter, List.filter_cons, hne]
      rw [hfil]
      simp [hv]

/-- Folding the bump over a list adds the componentwise aggregates. -/
theorem bumpStats_fold (l : List ProcessedItem) : ∀ s : VendorStats,
    l.foldl bumpStats s =
      { total_parts := s.total_parts + l.length
        total_qty := s.total_qty + (l.map (fun p => p.qty)).sum
        total_rm := s.total_rm + (l.map (fun p => p.rm)).sum
        total_value := s.total_value + (l.map (fun p => p.stock_value)).sum
        short_parts := s.short_parts + countStatus l .short
        excess_parts := s.excess_parts + countStatus l .excess
        normal_parts := s.normal_parts + countStatus l .withinNorms } := by
  induction l with
  | nil =>
    intro s
    cases s
    simp [countStatus]
  | cons p rest ih =>
    intro s
    rw [List.foldl_cons, ih]
    cases hst : p.status <;>
      simp [bumpStats, hst, countStatus, List.filter_cons, VendorStats.mk.injEq] <;>
      and_intros <;>
      first
      | omega
      | ring

/-- `get_vendor_summary` computes the spec-side vendor aggregation. -/
theorem gvs_char (ps : List ProcessedItem) (v : String) :
    get_vendor_summary ps v = vendorAggSpec ps v := by
  unfold get_vendor_summary vendorAggSpec
  rw [gvs_general]
  cases hemp : (vendorFilter ps v).isEmpty
  · simp only [Bool.false_eq_true, if_false, Option.getD_none, bumpStats_fold]
    simp [initVendorStats]
  · simp

/-- A vendor has a bucket iff one of the records carries it. -/
theorem vendorFilter_isEmpty_iff (ps : List ProcessedItem) (v : String) :
    (vendorFilter ps v).isEmpty = true ↔ v ∉ ps.map (fun p => p.vendor) := by
  simp only [vendorFilter, List.isEmpty_iff, List.filter_eq_nil_iff, List.mem_map,
    decide_eq_true_eq]
  constructor
  · rintro h ⟨p, hp, rfl⟩
    exact h p hp rfl
  · intro h p hp hpv
    exact h ⟨p, hp, hpv⟩

/-- Claim C8: the vendor summary is defined exactly on the vendors that
occur among the records, and each vendor's bucket holds the part count,
quantity, required-quantity and stock-value sums and the per-status counts
over exactly that vendor's records; the claim's two-record example
evaluates as stated. -/
theorem C8_vendor_aggregation :
    (∀ (ps : List ProcessedItem) (v : String),
      ((get_vendor_summary ps v).isSome ↔ v ∈ ps.map (fun p => p.vendor)) ∧
      get_vendor_summary ps v = vendorAggSpec ps v) ∧
    get_vendor_summary
        [{ material := "A1", description := "", qty := 1, rm := 2, variance_percent := -50,
           variance_value := -1, status := .short, stock_value := 10, vendor := "V1" },
         { material := "A2", description := "", qty := 4, rm := 2, variance_percent := 100,
           variance_value := 2, status := .excess, stock_value := 20, vendor := "V1" }]
        "V1"
      = some { total_parts := 2, total_qty := 5, total_rm := 4, total_value := 30,
               short_parts := 1, excess_parts := 1, normal_parts := 0 } := by
  constructor
  · intro ps v
    refine ⟨?_, gvs_char ps v⟩
    rw [gvs_char]
    unfold vendorAggSpec
    by_cases hemp : (vendorFilter ps v).isEmpty = true
    · rw [if_pos hemp]
      simp only [Option.isSome_none, Bool.false_eq_true, false_iff]
      exact (vendorFilter_isEmpty_iff ps v).mp hemp
    · rw [if_neg hemp]
      simp only [Option.isSome_some, true_iff]
      by_contra hmem
      exact hemp ((vendorFilter_isEmpty_iff ps v).mpr hmem)
  · simp [get_vendor_summary, bumpStats, initVendorStats]
    norm_num

/-- Claim C10: every bucket of the vendor summary partitions its records,
the three status counts summing to the part total, which is at least 1. -/
theorem C10_vendor_partition (ps : List ProcessedItem) (v : String) (s : VendorStats)
    (h : get_vendor_summary ps v = some s) :
    s.short_parts + s.excess_parts + s.normal_parts = s.total_parts ∧ 1 ≤ s.total_parts := by
  rw [gvs_char] at h
  unfold vendorAggSpec at h
  cases hemp : (vendorFilter ps v).isEmpty
  · rw [hemp] at h
    simp only [Bool.false_eq_true, if_false, Option.some.injEq] at h
    have hpart := countStatus_partition (vendorFilter ps v)
    have hlen : 1 ≤ (vendorFilter ps v).length := by
      cases hfr : vendorFilter ps v with
      | nil => rw [hfr] at hemp; simp [List.isEmpty] at hemp
      | cons a l => simp [hfr]
    rw [← h]
    dsimp only
    exact ⟨by omega, hlen⟩
  · rw [hemp] at h
    simp at h

/-- Witness for C10 on a single short record for vendor "V1". -/
theorem C10_vendor_partition_witness :
    (({ total_parts := 1, total_qty := 1, total_rm := 2, total_value := 10,
        short_parts := 1, excess_parts := 0, normal_parts := 0 } : VendorStats).short_parts +
        ({ total_parts := 1, total_qty := 1, total_rm := 2, total_value := 10,
           short_parts := 1, excess_parts := 0, normal_parts := 0 } : VendorStats).excess_parts +
        ({ total_parts := 1, total_qty := 1, total_rm := 2, total_value := 10,
           short_parts := 1, excess_parts := 0, normal_parts := 0 } : VendorStats).normal_parts
      = ({ total_parts := 1, total_qty := 1, total_rm := 2, total_value := 10,
           short_parts := 1, excess_parts := 0, normal_parts := 0 } : VendorStats).total_parts) ∧
    1 ≤ ({ total_parts := 1, total_qty := 1, total_rm := 2, total_value := 10,
           short_parts := 1, excess_parts := 0, normal_parts := 0 } : VendorStats).total_parts :=
  C10_vendor_partition
    [{ material := "A1", description := "", qty := 1, rm := 2, variance_percent := -50,
       variance_value := -1, status := .short, stock_value := 10, vendor := "V1" }]
    "V1"
    { total_parts := 1, total_qty := 1, total_rm := 2, total_value := 10,
      short_parts := 1, excess_parts := 0, normal_parts := 0 }
    (by simp [get_vendor_summary, bumpStats, initVendorStats])

end Invent
